import Mathlib

/-!
Shallow embedding of the PocketSSH T-Lora-Pager session engine
(src/main/ssh_terminal.cpp) for checking the natural-language spec.

Strings from the C++ code are modelled as Lean `String`/`List Char`;
`std::vector` as `List`; `std::map<std::string,std::string>` as an
association list whose keys are stored lowercased (mirroring
`load_key_from_memory`); fallible C++ paths (null return, thrown
`std::out_of_range`) as `Option`.
-/

namespace PocketSSH

/-! ## ASCII helpers (lowercase_ascii and character classes) -/

/-- `std::tolower` on an unsigned char in the C locale: lowers `A`–`Z` only. -/
def asciiToLower (c : Char) : Char :=
  if 'A' ≤ c ∧ c ≤ 'Z' then Char.ofNat (c.toNat + 32) else c

/-- `lowercase_ascii` (ssh_terminal.cpp:462): lowercases each byte. -/
def lowercase_ascii (s : String) : String :=
  ⟨s.data.map asciiToLower⟩

/-- ASCII `std::isalnum`. -/
def isAsciiAlnum (c : Char) : Bool :=
  ('a' ≤ c ∧ c ≤ 'z') ∨ ('A' ≤ c ∧ c ≤ 'Z') ∨ ('0' ≤ c ∧ c ≤ '9')

/-- ASCII `std::isdigit`. -/
def isAsciiDigit (c : Char) : Bool :=
  '0' ≤ c ∧ c ≤ '9'

/-- ASCII letter `A`–`Z` or `a`–`z`, the CSI-terminator test of
`strip_ansi_codes` (ssh_terminal.cpp:4451). -/
def isAsciiLetter (c : Char) : Bool :=
  ('A' ≤ c ∧ c ≤ 'Z') ∨ ('a' ≤ c ∧ c ≤ 'z')

/-! ## Wildcard matching (ssh_terminal.cpp:667 `wildcard_match`)

The C++ function is an iterative two-pointer glob matcher with `*`
backtracking.  We embed the loop verbatim with an explicit fuel
argument; the loop strictly decreases the lexicographic measure
`(|text|+1-match, |pat|-p)` (the invariant `match ≤ t ≤ |text|` holds
throughout), so `(|text|+2)*(|pat|+2)` iterations always suffice and
the fuel-exhausted branch is unreachable for the fuel chosen in
`wildcard_match`. -/

/-- Trailing-`*` skip after the main loop: `while (p < pat.size && pat[p]=='*') ++p;
return p == pat.size;` applied to the remaining pattern. -/
def wmSkipStars : List Char → Bool
  | [] => true
  | c :: rest => if c = '*' then wmSkipStars rest else false

/-- The main loop of `wildcard_match`.  `p`, `t` are the pattern/text
cursors, `star` the index of the last `*` (C++ `std::string::npos`
becomes `none`), `m` the backtrack text position. -/
def wmLoop (pat text : List Char) : Nat → Nat → Nat → Option Nat → Nat → Bool
  | 0, _, _, _, _ => false
  | fuel + 1, p, t, star, m =>
    if t < text.length then
      if p < pat.length ∧ (pat.getD p ' ' = '?' ∨ pat.getD p ' ' = text.getD t ' ') then
        wmLoop pat text fuel (p + 1) (t + 1) star m
      else if p < pat.length ∧ pat.getD p ' ' = '*' then
        wmLoop pat text fuel (p + 1) t (some p) t
      else
        match star with
        | some s => wmLoop pat text fuel (s + 1) (m + 1) (some s) (m + 1)
        | none => false
    else
      wmSkipStars (pat.drop p)

/-- `wildcard_match(pattern, candidate)`: case-insensitive glob match
with `*`/`?` and backtracking on `*`. -/
def wildcard_match (pattern candidate : String) : Bool :=
  let pat := (lowercase_ascii pattern).data
  let text := (lowercase_ascii candidate).data
  wmLoop pat text ((text.length + 2) * (pat.length + 2)) 0 0 none 0

/-! ## Host-alias file data model (ssh_terminal.cpp:238-292) -/

/-- `SSHConfigOptions`: every option carries an explicit set/unset flag. -/
structure SSHConfigOptions where
  has_host_name : Bool := false
  host_name : String := ""
  has_user : Bool := false
  user : String := ""
  has_port : Bool := false
  port : Int := 22
  has_identities_only : Bool := false
  identities_only : Bool := false
  identity_files : List String := []
  has_connect_timeout : Bool := false
  connect_timeout : Int := 0
  has_server_alive_interval : Bool := false
  server_alive_interval : Int := 0
  has_server_alive_count_max : Bool := false
  server_alive_count_max : Int := 0
  has_strict_host_key_checking : Bool := false
  strict_host_key_checking : String := ""
  has_network : Bool := false
  network : String := ""
  has_fontsize : Bool := false
  fontsize_big : Bool := false
deriving DecidableEq

/-- `SSHConfigHostBlock`: pattern list (possibly `!`-negated) plus options. -/
structure SSHConfigHostBlock where
  patterns : List String := []
  options : SSHConfigOptions := {}
deriving DecidableEq

/-- `SSHConfigFile`: global options plus ordered host blocks. -/
structure SSHConfigFile where
  global_options : SSHConfigOptions := {}
  host_blocks : List SSHConfigHostBlock := []
  aliases : List String := []
deriving DecidableEq

/-- `ResolvedSSHConfig` (ssh_terminal.cpp:282). -/
structure ResolvedSSHConfig where
  matched : Bool := false
  alias_name : String := ""
  host_name : String := ""
  user : String := ""
  port : Int := 22
  identities_only : Bool := false
  identity_files : List String := []
  strict_host_key_checking : String := "ask"
  network : String := ""
deriving DecidableEq

/-- Loop body of `host_block_matches` (ssh_terminal.cpp:699): iterate the
patterns carrying the `has_positive` / `positive_match` flags, returning
`false` immediately when a negated pattern matches. -/
def hostBlockMatchesLoop (aliasStr : String) (has_positive positive_match : Bool) :
    List String → Bool
  | [] => has_positive && positive_match
  | raw :: rest =>
    if raw.isEmpty then
      hostBlockMatchesLoop aliasStr has_positive positive_match rest
    else if raw.front = '!' then
      let neg := raw.drop 1
      if ¬neg.isEmpty ∧ wildcard_match neg aliasStr then false
      else hostBlockMatchesLoop aliasStr has_positive positive_match rest
    else
      hostBlockMatchesLoop aliasStr true (positive_match || wildcard_match raw aliasStr) rest

/-- `host_block_matches(block, alias)` (ssh_terminal.cpp:699). -/
def host_block_matches (block : SSHConfigHostBlock) (aliasStr : String) : Bool :=
  hostBlockMatchesLoop aliasStr false false block.patterns

/-- The spec's wording of pattern-list matching, for claim C1: at least
one non-negated pattern (first character not `!`) wildcard-matches the
alias, and no `!`-negated pattern's remainder wildcard-matches it. -/
def block_matches_claim (block : SSHConfigHostBlock) (aliasStr : String) : Bool :=
  (block.patterns.any fun p => !(p.front == '!') && wildcard_match p aliasStr) &&
  !(block.patterns.any fun p => (p.front == '!') && wildcard_match (p.drop 1) aliasStr)

/-- `merge_options(source, target)` (ssh_terminal.cpp:811): copy every
explicitly-set field of `source` over `target`; identity files append.
The C++ body is a sequence of per-field `if (source.has_x)` writes; the
writes touch pairwise-disjoint fields, so the merged record is written
directly (appending an empty identity-file list is the identity, so the
`!source.identity_files.empty()` guard is dropped). -/
def merge_options (source target : SSHConfigOptions) : SSHConfigOptions :=
  { has_host_name := source.has_host_name || target.has_host_name
    host_name := if source.has_host_name then source.host_name else target.host_name
    has_user := source.has_user || target.has_user
    user := if source.has_user then source.user else target.user
    has_port := source.has_port || target.has_port
    port := if source.has_port then source.port else target.port
    has_identities_only := source.has_identities_only || target.has_identities_only
    identities_only :=
      if source.has_identities_only then source.identities_only else target.identities_only
    identity_files := target.identity_files ++ source.identity_files
    has_connect_timeout := source.has_connect_timeout || target.has_connect_timeout
    connect_timeout :=
      if source.has_connect_timeout then source.connect_timeout else target.connect_timeout
    has_server_alive_interval :=
      source.has_server_alive_interval || target.has_server_alive_interval
    server_alive_interval :=
      if source.has_server_alive_interval then source.server_alive_interval
      else target.server_alive_interval
    has_server_alive_count_max :=
      source.has_server_alive_count_max || target.has_server_alive_count_max
    server_alive_count_max :=
      if source.has_server_alive_count_max then source.server_alive_count_max
      else target.server_alive_count_max
    has_strict_host_key_checking :=
      source.has_strict_host_key_checking || target.has_strict_host_key_checking
    strict_host_key_checking :=
      if source.has_strict_host_key_checking then source.strict_host_key_checking
      else target.strict_host_key_checking
    has_network := source.has_network || target.has_network
    network := if source.has_network then source.network else target.network
    has_fontsize := source.has_fontsize || target.has_fontsize
    fontsize_big := if source.has_fontsize then source.fontsize_big else target.fontsize_big }

/-- The block-merging fold of `resolve_ssh_alias`
(ssh_terminal.cpp:1974-1983): the running effective options (seeded by
merging the global options into the default-initialized locals) and the
`matched` flag. -/
def resolve_fold (aliasStr : String) (parsed : SSHConfigFile) : SSHConfigOptions × Bool :=
  parsed.host_blocks.foldl
    (fun (st : SSHConfigOptions × Bool) block =>
      if host_block_matches block aliasStr then (merge_options block.options st.1, true) else st)
    (merge_options parsed.global_options {}, false)

/-- `resolve_ssh_alias` (ssh_terminal.cpp:1963) given the already-parsed
file (`parse_ssh_config_file` success is taken as input here; the claim
quantifies over parsed host-alias files).  Returns `none` for `NotFound`:
the C++ function returns `false` when the alias is empty or no block
matched. -/
def resolve_ssh_alias (aliasStr : String) (parsed : SSHConfigFile) : Option ResolvedSSHConfig :=
  if aliasStr = "" then none
  else if (resolve_fold aliasStr parsed).2 then
      some { matched := true
             alias_name := aliasStr
             host_name := if (resolve_fold aliasStr parsed).1.has_host_name then
               (resolve_fold aliasStr parsed).1.host_name else aliasStr
             user := if (resolve_fold aliasStr parsed).1.has_user then
               (resolve_fold aliasStr parsed).1.user else ""
             port := if (resolve_fold aliasStr parsed).1.has_port then
               (resolve_fold aliasStr parsed).1.port else 22
             identities_only := if (resolve_fold aliasStr parsed).1.has_identities_only then
               (resolve_fold aliasStr parsed).1.identities_only else false
             identity_files := (resolve_fold aliasStr parsed).1.identity_files
             strict_host_key_checking :=
               if (resolve_fold aliasStr parsed).1.has_strict_host_key_checking then
                 (resolve_fold aliasStr parsed).1.strict_host_key_checking else "ask"
             network := if (resolve_fold aliasStr parsed).1.has_network then
               (resolve_fold aliasStr parsed).1.network else "" }
  else none

/-! ## Scrollback append (ssh_terminal.cpp:3145 `SSHTerminal::append_text`)

The visible scrollback (the LVGL textarea contents) is modelled as a
`List Char`; `append_text` is the pure state transformer the C++
function applies to it. -/

/-- `kTerminalScrollbackBytes` (ssh_terminal.cpp:114). -/
def kTerminalScrollbackBytes : Nat := 12288

/-- `kTerminalAppendChunkBytes` (ssh_terminal.cpp:115). -/
def kTerminalAppendChunkBytes : Nat := 1024

/-- `SSHTerminal::append_text` as a pure function of the current
scrollback contents and the appended text (ssh_terminal.cpp:3145):
first cap the incoming text at `kTerminalAppendChunkBytes` keeping its
newest suffix, then trim the old contents so the append fits in
`kTerminalScrollbackBytes`, then append. -/
def append_text (current text : List Char) : List Char :=
  let new_text := if text.length > kTerminalAppendChunkBytes
    then text.drop (text.length - kTerminalAppendChunkBytes) else text
  let new_len := new_text.length
  let current_len := current.length
  let projected_len := current_len + new_len
  let current' :=
    if projected_len > kTerminalScrollbackBytes ∧ current_len > 0 then
      let keep_len := if new_len ≥ kTerminalScrollbackBytes then 0
        else kTerminalScrollbackBytes - new_len
      if keep_len = 0 then []
      else if current_len > keep_len then current.drop (current_len - keep_len)
      else current
    else current
  if current'.length + new_len ≤ kTerminalScrollbackBytes then current' ++ new_text
  else current'

/-! ## Command history (ssh_terminal.cpp:3431, 3802, 3848)

`handle_key_input` on Enter looks up the submitted command with
`std::find`, erases the first occurrence if present, and appends the
command at the back.  `save_history_to_nvs` stores the newest 100
entries under keys `hist_0 ..`, with `hist_count`; `load_history_from_nvs`
reads back at most `min(hist_count, 100)` entries. -/

/-- The history update performed on command submission
(ssh_terminal.cpp:3431-3435). -/
def submit_history (history : List String) (cmd : String) : List String :=
  history.erase cmd ++ [cmd]

/-- `save_history_to_nvs` (ssh_terminal.cpp:3848) on the happy path
(all NVS writes succeed): the stored count and entry list. -/
def save_history_to_nvs (history : List String) : Nat × List String :=
  let start_idx := if history.length > 100 then history.length - 100 else 0
  (history.length - start_idx, history.drop start_idx)

/-- `load_history_from_nvs` (ssh_terminal.cpp:3802) on the happy path:
reads entries `hist_0 .. hist_(min(count,100)-1)` from the store. -/
def load_history_from_nvs (stored : Nat × List String) : List String :=
  stored.2.take (min stored.1 100)

/-! ## send_command (ssh_terminal.cpp:4360)

The channel-write results are supplied as a stream indexed by call
number; `LIBSSH2_ERROR_EAGAIN` is `WriteResult.eagain`, any other
negative return is `WriteResult.error`, a non-negative return is
`WriteResult.wrote n`.  The loop is embedded with fuel (`none` =
fuel exhausted); the all-EAGAIN scenario of claim C5 terminates
within fuel 21 because `retry_count` reaches `MAX_RETRIES = 20`. -/

inductive WriteResult where
  | eagain : WriteResult
  | error : Int → WriteResult
  | wrote : Nat → WriteResult
deriving DecidableEq

/-- Outcome of `send_command`: bytes written, whether the partial-write
warning fired, and the payload handed to the channel writes. -/
structure SendOutcome where
  written : Nat
  partial_warn : Bool
  payload : String
deriving DecidableEq

/-- The retry loop of `send_command` (ssh_terminal.cpp:4375-4389).
`MAX_RETRIES = 20`; an EAGAIN increments `retry_count`, an error breaks,
a successful write advances `nwritten` and resets `retry_count`. -/
def sendLoop (writes : Nat → WriteResult) (total : Nat) :
    Nat → Nat → Nat → Nat → Option Nat
  | 0, _, _, _ => none
  | fuel + 1, call, nwritten, retry_count =>
    if nwritten < total ∧ retry_count < 20 then
      match writes call with
      | WriteResult.eagain => sendLoop writes total fuel (call + 1) nwritten (retry_count + 1)
      | WriteResult.error _ => some nwritten
      | WriteResult.wrote n => sendLoop writes total fuel (call + 1) (nwritten + n) 0
    else some nwritten

/-- `SSHTerminal::send_command` (ssh_terminal.cpp:4360): appends a
newline to the command and runs the bounded-retry write loop. -/
def send_command (cmd : String) (writes : Nat → WriteResult) (fuel : Nat) :
    Option SendOutcome :=
  let full_cmd := cmd ++ "\n"
  match sendLoop writes full_cmd.length fuel 0 0 0 with
  | none => none
  | some nwritten =>
    some { written := nwritten
           partial_warn := nwritten < full_cmd.length
           payload := full_cmd }

/-! ## Escape stripping (ssh_terminal.cpp:4435 `strip_ansi_codes`) -/

/-- The ESC byte. -/
def escChar : Char := '\x1b'

/-- The BEL byte. -/
def belChar : Char := '\x07'

/-- CSI skip (ssh_terminal.cpp:4451): advance until an ASCII letter,
which the enclosing `for` then also consumes. -/
def dropCsi : List Char → List Char
  | [] => []
  | c :: rest => if isAsciiLetter c then rest else dropCsi rest

/-- OSC skip (ssh_terminal.cpp:4457): advance until BEL (consumed), or
ESC immediately followed by `\` (both consumed), or end of buffer. -/
def dropOsc : List Char → List Char
  | [] => []
  | c :: rest =>
    if c = belChar then rest
    else if c = escChar ∧ rest.head? = some '\\' then rest.tail
    else dropOsc rest

/-- `SSHTerminal::strip_ansi_codes` (ssh_terminal.cpp:4435): removes CSI
sequences through their final letter, OSC sequences through BEL or
ESC-backslash, two-byte charset designators, any other two-byte ESC
sequence, and carriage returns; ordinary bytes pass through. -/
def strip_ansi_codes : List Char → List Char
  | [] => []
  | c :: rest =>
    if c = escChar then
      match rest with
      | [] => []
      | d :: r2 =>
        if d = '[' then strip_ansi_codes (dropCsi r2)
        else if d = ']' then strip_ansi_codes (dropOsc r2)
        else if d = '(' ∨ d = ')' then strip_ansi_codes r2.tail
        else strip_ansi_codes r2
    else if c = '\r' then strip_ansi_codes rest
    else c :: strip_ansi_codes rest
termination_by l => l.length
decreasing_by
  · have h : ∀ l : List Char, (dropCsi l).length ≤ l.length := by
      intro l
      induction l with
      | nil => simp [dropCsi]
      | cons c rest ih =>
        simp only [dropCsi]
        split
        · simp
        · exact Nat.le_trans ih (Nat.le_succ _)
    exact Nat.lt_succ_of_lt (Nat.lt_succ_of_le (h _))
  · have h : ∀ l : List Char, (dropOsc l).length ≤ l.length := by
      intro l
      induction l with
      | nil => simp [dropOsc]
      | cons c rest ih =>
        simp only [dropOsc]
        split
        · simp
        · split
          · calc rest.tail.length ≤ rest.length := by cases rest <;> simp
              _ ≤ (c :: rest).length := by simp
          · exact Nat.le_trans ih (Nat.le_succ _)
    exact Nat.lt_succ_of_lt (Nat.lt_succ_of_le (h _))
  · refine Nat.lt_succ_of_lt (Nat.lt_succ_of_le ?_)
    rename_i rest _ _ _ _
    cases rest <;> simp
  · exact Nat.lt_succ_of_lt (Nat.lt_succ_self _)
  · exact Nat.lt_succ_self _
  · exact Nat.lt_succ_self _

/-! ## Identity resolver (ssh_terminal.cpp:610, 2078, 2164, 2193, 2314)

Loaded keys (`SSHTerminal::loaded_keys`, a `std::map` keyed by the
lowercased filename, see `load_key_from_memory` ssh_terminal.cpp:4817)
are modelled as an association list `List (String × String)` of
(stored name, key content). -/

/-- `base_name` (ssh_terminal.cpp:610): the substring after the last
`/` (the whole string when there is none). -/
def base_name (s : String) : String :=
  ⟨(s.data.reverse.takeWhile (· ≠ '/')).reverse⟩

/-- Stem before the last `.` of a name's character list (`rfind('.')`
then `substr(0, dot)`); the whole list when there is no dot. -/
def stemBeforeLastDot (l : List Char) : List Char :=
  if '.' ∈ l then (((l.reverse.dropWhile (· ≠ '.')).drop 1)).reverse else l

/-- Extension from the last `.` inclusive (`substr(dot)`); empty when
there is no dot. -/
def extFromLastDot (l : List Char) : List Char :=
  if '.' ∈ l then '.' :: (l.reverse.takeWhile (· ≠ '.')).reverse else []

/-- `normalize_key_stem` (ssh_terminal.cpp:2193): lowercase the base
name, strip the extension, keep only alphanumerics. -/
def normalize_key_stem (filename : String) : String :=
  ⟨(stemBeforeLastDot (lowercase_ascii (base_name filename)).data).filter isAsciiAlnum⟩

/-- `short_name_prefix` (ssh_terminal.cpp:2078): the alphanumeric-only
prefix before the first `~` of the lowercased extension-stripped base
name; empty when there is no `~` or it is at position 0. -/
def short_name_prefix (name : String) : String :=
  let stem := stemBeforeLastDot (lowercase_ascii (base_name name)).data
  let pre := stem.takeWhile (· ≠ '~')
  if pre.length = stem.length ∨ pre.length = 0 then ""
  else ⟨pre.filter isAsciiAlnum⟩

/-- `parse_short_83_name` (ssh_terminal.cpp:2164): recognizes a FAT
8.3-style truncated name `prefix~digits[.ext]` (lowercased); returns
the prefix and the extension (with dot). -/
def parse_short_83_name (name : String) : Option (String × String) :=
  let lower := (lowercase_ascii (base_name name)).data
  let stem := stemBeforeLastDot lower
  let ext := extFromLastDot lower
  if stem.isEmpty then none
  else
    let pre := stem.takeWhile (· ≠ '~')
    if pre.length = stem.length ∨ pre.length = 0 ∨ pre.length + 1 ≥ stem.length then none
    else if (stem.drop (pre.length + 1)).all isAsciiDigit then some (⟨pre⟩, ⟨ext⟩)
    else none

/-- `SSHTerminal::get_loaded_key` (ssh_terminal.cpp:4835): map lookup
of the lowercased query name. -/
def get_loaded_key (loaded_keys : List (String × String)) (keyname : String) :
    Option String :=
  (loaded_keys.find? fun kv => kv.1 = lowercase_ascii keyname).map (·.2)

/-- The C++ `value.rfind(candidate, 0) == 0` prefix test, computed on
the character lists (kernel-reducible, unlike `String.startsWith`). -/
def str_starts_with (s pre : String) : Bool :=
  pre.data.isPrefixOf s.data

/-- The per-candidate stem-match test of `find_loaded_key_with_fallback`
(ssh_terminal.cpp:2343-2358): exact, prefix, or truncated-prefix
equality of normalized stems. -/
def stem_candidate_matches (target_stem : String) (candidate : String) : Bool :=
  let candidate_stem := normalize_key_stem candidate
  if candidate_stem.isEmpty ∨ target_stem.isEmpty then false
  else
    (candidate_stem = target_stem ||
     str_starts_with target_stem candidate_stem ||
     str_starts_with candidate_stem target_stem) ||
    (let csp := short_name_prefix candidate
     !csp.isEmpty && str_starts_with target_stem csp)

/-- The per-candidate test of the short-8.3 stage
(ssh_terminal.cpp:2373-2388). -/
def short83_candidate_matches (short_pre short_ext : String) (candidate : String) : Bool :=
  let candidate_lower := (lowercase_ascii (base_name candidate)).data
  let candidate_stem : String := ⟨stemBeforeLastDot candidate_lower⟩
  let candidate_ext : String := ⟨extFromLastDot candidate_lower⟩
  (short_ext.isEmpty || candidate_ext = short_ext) &&
  str_starts_with candidate_stem short_pre

/-- `find_loaded_key_with_fallback` (ssh_terminal.cpp:2314): direct
lookup, then unambiguous normalized-stem match, then unambiguous
short-8.3 match, then the sole-candidate fallback.  Returns the
resolved (stored name, content) pair, `none` for the C++ `nullptr`. -/
def find_loaded_key_with_fallback (loaded_keys : List (String × String))
    (identity_path : String) : Option (String × String) :=
  let desired_name := base_name identity_path
  match get_loaded_key loaded_keys desired_name with
  | some content => some (desired_name, content)
  | none =>
    let key_names := loaded_keys.map (·.1)
    if key_names.isEmpty then none
    else
      let target_stem := normalize_key_stem desired_name
      let stem_matches := key_names.filter (stem_candidate_matches target_stem)
      if stem_matches.length = 1 then
        let matched_name := stem_matches.getLast?.getD ""
        (get_loaded_key loaded_keys matched_name).map (matched_name, ·)
      else
        let short_result :=
          match parse_short_83_name desired_name with
          | none => none
          | some (short_pre, short_ext) =>
            let short_matches := key_names.filter ( short83_candidate_matches
              short_pre short_ext)
            if short_matches.length = 1 then
              some (short_matches.getLast?.getD "")
            else none
        match short_result with
        | some matched_name => (get_loaded_key loaded_keys matched_name).map (matched_name, ·)
        | none =>
          if key_names.length = 1 then
            let front := key_names.headD ""
            (get_loaded_key loaded_keys front).map (front, ·)
          else none

/-! ## Session allocation recovery (ssh_terminal.cpp:4022-4043, 4164-4185)

`connect` and `connect_with_key` share the same session-init slice:
`libssh2_session_init`, on failure one recovery (clear the visible
scrollback, brief delay, retry once), and on a second failure release
the socket and abort the connect call.  The allocator results are
supplied as a stream indexed by attempt number. -/

/-- Observable outcome of the session-allocation phase of a connect
call. -/
structure SessionInitOutcome where
  alloc_attempts : Nat
  scrollback_cleared : Bool
  session_ok : Bool
  socket_released : Bool
deriving DecidableEq

/-- The session-allocation phase common to `SSHTerminal::connect`
(ssh_terminal.cpp:4022-4043) and `SSHTerminal::connect_with_key`
(ssh_terminal.cpp:4164-4185). -/
def session_init_phase (alloc : Nat → Bool) : SessionInitOutcome :=
  if alloc 0 then
    { alloc_attempts := 1, scrollback_cleared := false, session_ok := true,
      socket_released := false }
  else if alloc 1 then
    { alloc_attempts := 2, scrollback_cleared := true, session_ok := true,
      socket_released := false }
  else
    { alloc_attempts := 2, scrollback_cleared := true, session_ok := false,
      socket_released := true }

/-! ## Teardown (ssh_terminal.cpp:4321 `SSHTerminal::disconnect`) -/

/-- The session-owning fields of `SSHTerminal` touched by `disconnect`;
handles are opaque (`Option Nat`), the socket is the C `int` fd. -/
structure SSHSessionState where
  channel : Option Nat
  session : Option Nat
  ssh_socket : Int
  ssh_connected : Bool
  connected_ssh_host : String
deriving DecidableEq

/-- A release operation performed by `disconnect`. -/
inductive ReleaseAction where
  | free_channel : ReleaseAction
  | free_session : ReleaseAction
  | close_socket : ReleaseAction
deriving DecidableEq

/-- `SSHTerminal::disconnect` (ssh_terminal.cpp:4321): clear the
connected flag and host, free the channel and session if present, close
the socket if open; returns the new state and the releases performed. -/
def disconnect (st : SSHSessionState) : SSHSessionState × List ReleaseAction :=
  let st := { st with ssh_connected := false, connected_ssh_host := "" }
  let step1 : SSHSessionState × List ReleaseAction :=
    if st.channel.isSome then ({ st with channel := none }, [ReleaseAction.free_channel])
    else (st, [])
  let step2 : SSHSessionState × List ReleaseAction :=
    if step1.1.session.isSome then
      ({ step1.1 with session := none }, step1.2 ++ [ReleaseAction.free_session])
    else step1
  if step2.1.ssh_socket ≥ 0 then
    ({ step2.1 with ssh_socket := -1 }, step2.2 ++ [ReleaseAction.close_socket])
  else step2

/-! ## Input editing and history navigation
(ssh_terminal.cpp:3192 `handle_key_input`, 3456 `update_input_display`,
3662 `navigate_history`, 3688-3718 cursor moves, 3729
`delete_current_history_entry`)

The controller state relevant to claim C10.  `std::string::insert` and
`erase` throw `std::out_of_range` when the position exceeds the string
size; a throw is modelled as `none`. -/

structure InputState where
  current_input : String
  cursor_pos : Nat
  command_history : List String
  history_index : Int
deriving DecidableEq

/-- The public input operations of the claim. -/
inductive InputOp where
  | key : Char → InputOp
  | moveLeft : InputOp
  | moveRight : InputOp
  | moveHome : InputOp
  | moveEnd : InputOp
  | navigate : Int → InputOp
  | deleteCurrent : InputOp
deriving DecidableEq

/-- The clamp in `update_input_display` (ssh_terminal.cpp:3462-3465),
run by every operation that calls it (the input label is assumed
present). -/
def clampCursor (st : InputState) : InputState :=
  if st.cursor_pos > st.current_input.length then
    { st with cursor_pos := st.current_input.length }
  else st

/-- `std::string::insert(pos, 1, c)`: `none` models the
`std::out_of_range` throw when `pos > size`. -/
def stringInsertAt (s : String) (pos : Nat) (c : Char) : Option String :=
  if pos ≤ s.length then some ⟨s.data.take pos ++ c :: s.data.drop pos⟩ else none

/-- `std::string::erase(pos, 1)`: `none` models the `std::out_of_range`
throw when `pos > size`. -/
def stringEraseAt (s : String) (pos : Nat) : Option String :=
  if pos ≤ s.length then some ⟨s.data.take pos ++ s.data.drop (pos + 1)⟩ else none

/-- History entry under navigation: `command_history[size - 1 - history_index]`
(ssh_terminal.cpp:3671). -/
def historyAt (history : List String) (idx : Int) : String :=
  history.getD (history.length - 1 - idx.toNat) ""

/-- `SSHTerminal::handle_key_input` (ssh_terminal.cpp:3192), restricted
to the fields of `InputState` (command dispatch and transcript output
do not touch them).  Ends with the `update_input_display` clamp. -/
def handle_key_input (st : InputState) (key : Char) : Option InputState :=
  if key = '\n' ∨ key = '\r' then
    if st.current_input ≠ "" then
      some (clampCursor
        { st with
          command_history := submit_history st.command_history st.current_input
          current_input := ""
          cursor_pos := 0
          history_index := -1 })
    else some (clampCursor st)
  else if key.toNat = 8 ∨ key.toNat = 127 then
    if st.cursor_pos > 0 ∧ st.current_input ≠ "" then
      match stringEraseAt st.current_input (st.cursor_pos - 1) with
      | none => none
      | some s => some (clampCursor
          { st with current_input := s, cursor_pos := st.cursor_pos - 1 })
    else some (clampCursor st)
  else if 32 ≤ key.toNat ∧ key.toNat ≤ 126 then
    match stringInsertAt st.current_input st.cursor_pos key with
    | none => none
    | some s => some (clampCursor
        { st with current_input := s, cursor_pos := st.cursor_pos + 1 })
  else some (clampCursor st)

/-- `SSHTerminal::navigate_history` (ssh_terminal.cpp:3662). -/
def navigate_history (st : InputState) (direction : Int) : InputState :=
  if st.command_history.isEmpty then st
  else
    let st :=
      if direction > 0 then
        if st.history_index < (st.command_history.length : Int) - 1 then
          let idx := st.history_index + 1
          { st with history_index := idx,
                    current_input := historyAt st.command_history idx }
        else st
      else if direction < 0 then
        if st.history_index > 0 then
          let idx := st.history_index - 1
          { st with history_index := idx,
                    current_input := historyAt st.command_history idx }
        else if st.history_index = 0 then
          { st with history_index := -1, current_input := "" }
        else st
      else st
    clampCursor { st with cursor_pos := st.current_input.length }

/-- `SSHTerminal::move_cursor_left` (ssh_terminal.cpp:3688). -/
def move_cursor_left (st : InputState) : InputState :=
  if st.cursor_pos > 0 then clampCursor { st with cursor_pos := st.cursor_pos - 1 }
  else st

/-- `SSHTerminal::move_cursor_right` (ssh_terminal.cpp:3697). -/
def move_cursor_right (st : InputState) : InputState :=
  if st.cursor_pos < st.current_input.length then
    clampCursor { st with cursor_pos := st.cursor_pos + 1 }
  else st

/-- `SSHTerminal::move_cursor_home` (ssh_terminal.cpp:3706). -/
def move_cursor_home (st : InputState) : InputState :=
  clampCursor { st with cursor_pos := 0 }

/-- `SSHTerminal::move_cursor_end` (ssh_terminal.cpp:3713). -/
def move_cursor_end (st : InputState) : InputState :=
  clampCursor { st with cursor_pos := st.current_input.length }

/-- `SSHTerminal::delete_current_history_entry` (ssh_terminal.cpp:3729).
Note: it writes the input label directly and never calls
`update_input_display`, so `cursor_pos` is left untouched. -/
def delete_current_history_entry (st : InputState) : InputState :=
  if st.command_history.isEmpty ∨ st.history_index < 0 then st
  else
    let actual_index := st.command_history.length - 1 - st.history_index.toNat
    let history' := st.command_history.eraseIdx actual_index
    if history'.isEmpty then
      { st with command_history := history', history_index := -1, current_input := "" }
    else if st.history_index ≥ (history'.length : Int) then
      let idx : Int := (history'.length : Int) - 1
      { st with command_history := history', history_index := idx,
                current_input := historyAt history' idx }
    else if actual_index < history'.length then
      { st with command_history := history',
                current_input := historyAt history' st.history_index }
    else
      { st with command_history := history', history_index := -1, current_input := "" }

/-- Apply one public input operation. -/
def applyInputOp (st : InputState) : InputOp → Option InputState
  | InputOp.key c => handle_key_input st c
  | InputOp.moveLeft => some (move_cursor_left st)
  | InputOp.moveRight => some (move_cursor_right st)
  | InputOp.moveHome => some (move_cursor_home st)
  | InputOp.moveEnd => some (move_cursor_end st)
  | InputOp.navigate d => some (navigate_history st d)
  | InputOp.deleteCurrent => some (delete_current_history_entry st)

/-- Run a sequence of input operations; `none` as soon as one throws. -/
def runInputOps (st : InputState) : List InputOp → Option InputState
  | [] => some st
  | op :: rest =>
    match applyInputOp st op with
    | none => none
    | some st' => runInputOps st' rest

/-- The controller's initial input state. -/
def initialInputState : InputState :=
  { current_input := "", cursor_pos := 0, command_history := [], history_index := -1 }

/-! ## Claim-side helper definitions and concrete fixtures -/

/-- The running merge of `resolve_ssh_alias`: fold `merge_options` over
a list of option sets, later entries overriding earlier ones. -/
def chainMerge (l : List SSHConfigOptions) (init : SSHConfigOptions) : SSHConfigOptions :=
  l.foldl (fun acc o => merge_options o acc) init

/-- The option sets of the blocks whose pattern list matches the alias,
in file order. -/
def matching_options (aliasStr : String) (F : SSHConfigFile) : List SSHConfigOptions :=
  (F.host_blocks.filter fun b => host_block_matches b aliasStr).map (·.options)

/-- The last explicitly-set value of a field in a list of option sets
(later entries override earlier ones), `none` when no entry sets it. -/
def lastSetBy {α : Type} (f : SSHConfigOptions → Option α) : List SSHConfigOptions → Option α
  | [] => none
  | o :: rest =>
    match lastSetBy f rest with
    | some v => some v
    | none => f o

/-- The explicitly-set port of one option set. -/
def portSetting (o : SSHConfigOptions) : Option Int :=
  if o.has_port then some o.port else none

/-- The explicitly-set hostname of one option set. -/
def hostNameSetting (o : SSHConfigOptions) : Option String :=
  if o.has_host_name then some o.host_name else none

/-- The explicitly-set strict-host-key-checking value of one option set. -/
def strictSetting (o : SSHConfigOptions) : Option String :=
  if o.has_strict_host_key_checking then some o.strict_host_key_checking else none

/-- A host-alias file whose only block matches every alias: used to
exhibit the empty-alias behaviour of `resolve_ssh_alias`. -/
def starOnlyConfigFile : SSHConfigFile :=
  { host_blocks := [{ patterns := ["*"] }] }

/-- The §8 scenario file: global `Port 2222`, block `Host box1` with
`HostName 10.0.0.5`, `User admin`, one identity file. -/
def exampleConfigFile : SSHConfigFile :=
  { global_options := { has_port := true, port := 2222 }
    host_blocks :=
      [ { patterns := ["box1"]
          options := { has_host_name := true, host_name := "10.0.0.5"
                       has_user := true, user := "admin"
                       identity_files := ["/sdcard/ssh_keys/a.pem"] } } ] }

/-- Resolution of `box1` against `exampleConfigFile`. -/
def exampleResolved : ResolvedSSHConfig :=
  { matched := true, alias_name := "box1", host_name := "10.0.0.5", user := "admin"
    port := 2222, identities_only := false
    identity_files := ["/sdcard/ssh_keys/a.pem"]
    strict_host_key_checking := "ask", network := "" }

/-- Input-operation sequence triggering the out-of-range insert: submit
`ab` and `c`, navigate back twice (to `ab`, cursor 2), delete that
entry (input becomes `c`, cursor stays 2), then type a character. -/
def cursorOutOfRangeOps : List InputOp :=
  [InputOp.key 'a', InputOp.key 'b', InputOp.key '\n',
   InputOp.key 'c', InputOp.key '\n',
   InputOp.navigate 1, InputOp.navigate 1,
   InputOp.deleteCurrent, InputOp.key 'z']

/-- A concrete fully-connected session state. -/
def exampleSessionState : SSHSessionState :=
  { channel := some 1, session := some 2, ssh_socket := 5, ssh_connected := true,
    connected_ssh_host := "box1" }

/-! # Theorems -/

/-- C8: on a connect attempt, a failed first protocol-session allocation
triggers exactly one recovery (clear the scrollback, retry once); a
second failure aborts the call releasing the socket; at most two
allocation attempts ever happen in one call, and a successful first
attempt performs no recovery. -/
theorem C8_session_alloc_recovery (alloc : Nat → Bool) :
    ((session_init_phase alloc).alloc_attempts ≤ 2) ∧
    (alloc 0 = false → (session_init_phase alloc).scrollback_cleared = true ∧
      (session_init_phase alloc).alloc_attempts = 2) ∧
    (alloc 0 = false → alloc 1 = false →
      (session_init_phase alloc).session_ok = false ∧
      (session_init_phase alloc).socket_released = true) ∧
    (alloc 0 = true → (session_init_phase alloc).alloc_attempts = 1 ∧
      (session_init_phase alloc).scrollback_cleared = false) := by
  unfold session_init_phase
  cases h0 : alloc 0 <;> cases h1 : alloc 1 <;> simp

/-- Witness for C8 at the always-failing allocator. -/
theorem C8_session_alloc_recovery_witness :
    (session_init_phase (fun _ => false)).session_ok = false ∧
    (session_init_phase (fun _ => false)).socket_released = true :=
  (C8_session_alloc_recovery (fun _ => false)).2.2.1 rfl rfl

/-- C9: teardown is idempotent: one `disconnect` nulls the channel,
session and socket handles and clears the connected flag, and a second
`disconnect` from that state performs no release and leaves the state
unchanged. -/
theorem C9_disconnect_idempotent (st : SSHSessionState) (h : st.ssh_socket ≥ -1) :
    ((disconnect st).1.channel = none) ∧
    ((disconnect st).1.session = none) ∧
    ((disconnect st).1.ssh_socket = -1) ∧
    ((disconnect st).1.ssh_connected = false) ∧
    ((disconnect (disconnect st).1).2 = []) ∧
    ((disconnect (disconnect st).1).1 = (disconnect st).1) := by
  unfold disconnect
  cases hc : st.channel <;> cases hs : st.session <;>
    by_cases hsock : st.ssh_socket ≥ 0 <;>
      simp [hc, hs, hsock] <;> omega

/-- Witness for C9 at a concrete connected state. -/
theorem C9_disconnect_idempotent_witness :
    exampleSessionState.ssh_socket ≥ -1 ∧
    (disconnect (disconnect exampleSessionState).1).1 = (disconnect exampleSessionState).1 :=
  ⟨by decide, (C9_disconnect_idempotent exampleSessionState (by decide)).2.2.2.2.2⟩

/-- C10: the cursor-bounds invariant fails on the code: submitting `ab`
then `c`, navigating back to `ab` (cursor 2), deleting that history
entry (input becomes `c` but the cursor is not reset), then typing a
printable character makes `handle_key_input` call
`std::string::insert(2, ...)` on a 1-character string, which throws
`std::out_of_range` (modelled as `none`). -/
theorem C10_cursor_out_of_range :
    runInputOps initialInputState cursorOutOfRangeOps = none ∧
    runInputOps initialInputState (cursorOutOfRangeOps.take 8) =
      some { current_input := "c", cursor_pos := 2, command_history := ["c"],
             history_index := 0 } := by
  constructor <;> rfl

/-- C5: `send_command` appends a newline to the command; when every
channel write returns EAGAIN the retry loop terminates after exhausting
the 20-retry budget with 0 bytes written and the partial-write warning
set (fuel 21 suffices: the result is `some`, not fuel exhaustion). -/
theorem C5_send_all_eagain (cmd : String) :
    send_command cmd (fun _ => WriteResult.eagain) 21 =
      some { written := 0, partial_warn := true, payload := cmd ++ "\n" } := by
  have hlen : 0 < (cmd ++ "\n").length := by
    rw [String.length_append]
    have h1 : ("\n" : String).length = 1 := rfl
    omega
  have key : ∀ (fuel retry call : Nat), retry ≤ 20 → 21 - retry ≤ fuel →
      sendLoop (fun _ => WriteResult.eagain) (cmd ++ "\n").length fuel call 0 retry = some 0 := by
    intro fuel
    induction fuel with
    | zero => intro retry call h1 h2; omega
    | succ f ih =>
      intro retry call h1 h2
      by_cases hr : retry < 20
      · rw [sendLoop, if_pos ⟨hlen, hr⟩]
        exact ih (retry + 1) (call + 1) (by omega) (by omega)
      · rw [sendLoop, if_neg (by omega)]
  unfold send_command
  simp only [key 21 0 0 (by omega) (by omega)]
  simp only [decide_eq_true hlen]

/-- C4: command history built from submissions has no duplicates; a
resubmitted command ends up exactly once and in last position; and a
save-to-NVS / reload round trip never yields more than 100 entries. -/
theorem C4_history (cmds : List String) (c : String) (history : List String) :
    ((cmds.foldl submit_history []).Nodup) ∧
    ((submit_history (cmds.foldl submit_history []) c).getLast? = some c) ∧
    ((submit_history (cmds.foldl submit_history []) c).count c = 1) ∧
    ((load_history_from_nvs (save_history_to_nvs history)).length ≤ 100) := by
  have hsub : ∀ (l : List String) (d : String), l.Nodup → (submit_history l d).Nodup := by
    intro l d hl
    unfold submit_history
    rw [List.nodup_append]
    refine ⟨hl.erase d, List.nodup_singleton d, ?_⟩
    intro a ha hb
    rw [List.mem_singleton] at hb
    subst hb
    exact ((hl.mem_erase_iff).mp ha).1 rfl
  have hfold : ∀ (l : List String) (init : List String), init.Nodup →
      (l.foldl submit_history init).Nodup := by
    intro l
    induction l with
    | nil => intro init h; exact h
    | cons d rest ih => intro init h; exact ih _ (hsub init d h)
  have hnodup : (cmds.foldl submit_history []).Nodup := hfold cmds [] List.nodup_nil
  have hshape : submit_history (cmds.foldl submit_history []) c =
      (cmds.foldl submit_history []).erase c ++ [c] := rfl
  refine ⟨hnodup, ?_, ?_, ?_⟩
  · rw [hshape]
    exact List.getLast?_concat _
  · rw [hshape, List.count_append]
    have h1 : ((cmds.foldl submit_history []).erase c).count c = 0 := by
      rw [List.count_erase_self]
      have := List.nodup_iff_count_le_one.mp hnodup c
      omega
    simp [h1]
  · unfold load_history_from_nvs save_history_to_nvs
    simp only [List.length_take]
    omega

/-- Shape of `append_text` on an over-cap append: the newest
`cap − chunk` bytes of the old contents followed by the newest chunk of
the new text. -/
theorem append_text_overflow_shape (current text : List Char)
    (h : text.length > 12288) :
    append_text current text =
      current.drop (current.length - 11264) ++ text.drop (text.length - 1024) := by
  have hld : (text.drop (text.length - 1024)).length = 1024 := by
    rw [List.length_drop]; omega
  simp only [append_text, kTerminalScrollbackBytes, kTerminalAppendChunkBytes]
  rw [if_pos (show text.length > 1024 by omega)]
  simp only [hld]
  norm_num
  split_ifs with h1 h2 h3 h4 h5
  · rfl
  · rw [List.length_drop] at h3
    omega
  · omega
  · omega
  · have h0 : current.length - 11264 = 0 := by omega
    rw [h0, List.drop_zero]
  · omega

/-- C3 counterexample: appending 12289 bytes (> `kScrollbackMax` =
12288) to an empty scrollback leaves 1024 bytes (the chunk cap), not
`min(N, cap)` = 12288 bytes. -/
theorem C3_counterexample :
    (append_text [] (List.replicate 12289 'a')).length ≠
      min (List.replicate 12289 'a').length kTerminalScrollbackBytes := by
  have h : (append_text [] (List.replicate 12289 'a')).length = 1024 := by
    rw [append_text_overflow_shape [] (List.replicate 12289 'a')
        (by rw [List.length_replicate]; omega)]
    rw [List.length_append, List.length_drop, List.length_drop, List.length_replicate]
    norm_num
  rw [h, List.length_replicate]
  norm_num [kTerminalScrollbackBytes]

/-- C3 (amended): appending N bytes with N > `kScrollbackMax` keeps the
newest `min(|old|, cap − chunk)` bytes of the prior scrollback followed
by the newest `kTerminalAppendChunkBytes` (1024) bytes of the appended
data — so `min(|old|, cap − chunk) + chunk` bytes total, within the cap,
with only the last chunk of the appended data (not `min(N, cap)` of it)
surviving. -/
theorem C3_append_overflow (current text : List Char)
    (h : text.length > kTerminalScrollbackBytes) :
    append_text current text =
      current.drop (current.length - (kTerminalScrollbackBytes - kTerminalAppendChunkBytes)) ++
        text.drop (text.length - kTerminalAppendChunkBytes) ∧
    (append_text current text).length =
      min current.length (kTerminalScrollbackBytes - kTerminalAppendChunkBytes) +
        kTerminalAppendChunkBytes ∧
    (append_text current text).length ≤ kTerminalScrollbackBytes := by
  rw [kTerminalScrollbackBytes] at h
  have hld : (text.drop (text.length - 1024)).length = 1024 := by
    rw [List.length_drop]; omega
  have hshape := append_text_overflow_shape current text h
  rw [kTerminalScrollbackBytes, kTerminalAppendChunkBytes]
  refine ⟨by rw [hshape], ?_, ?_⟩ <;>
    rw [hshape, List.length_append, List.length_drop, hld] <;> omega

/-- Witness for C3 (amended) at a 12289-byte append to an empty
scrollback. -/
theorem C3_append_overflow_witness :
    (List.replicate 12289 'a').length > kTerminalScrollbackBytes ∧
    (append_text [] (List.replicate 12289 'a')).length ≤ kTerminalScrollbackBytes :=
  ⟨by norm_num [kTerminalScrollbackBytes, List.length_replicate],
   (C3_append_overflow [] (List.replicate 12289 'a')
     (by norm_num [kTerminalScrollbackBytes, List.length_replicate])).2.2⟩

/-- An all-non-letter CSI body is skipped entirely. -/
theorem dropCsi_of_no_letter {l : List Char}
    (h : ∀ c ∈ l, isAsciiLetter c = false) : dropCsi l = [] := by
  induction l with
  | nil => rfl
  | cons c rest ih =>
    have hc := h c (List.mem_cons_self c rest)
    simp only [dropCsi, hc, Bool.false_eq_true, if_false]
    exact ih fun d hd => h d (List.mem_cons_of_mem c hd)

/-- An OSC body with no BEL and no ESC is skipped entirely. -/
theorem dropOsc_of_no_terminator {l : List Char}
    (h1 : belChar ∉ l) (h2 : escChar ∉ l) : dropOsc l = [] := by
  induction l with
  | nil => rfl
  | cons c rest ih =>
    have hc1 : ¬c = belChar := fun e => h1 (e ▸ List.mem_cons_self c rest)
    have hc2 : ¬(c = escChar ∧ rest.head? = some '\\') :=
      fun e => h2 (e.1 ▸ List.mem_cons_self c rest)
    simp only [dropOsc, if_neg hc1, if_neg hc2]
    exact ih (fun e => h1 (List.mem_cons_of_mem c e))
      (fun e => h2 (List.mem_cons_of_mem c e))

/-- C6: the escape stripper turns `"\x1b[31mRED\x1b[0m"` into `"RED"`;
on escape-free input it exactly removes carriage returns; an
unterminated CSI or OSC sequence at buffer end consumes the remainder
and yields the empty result (no panic: the function is total); and a
two-byte charset designator after ESC is consumed together with its
designator byte. -/
theorem C6_strip_ansi :
    (strip_ansi_codes ("\x1b[31mRED\x1b[0m".data) = "RED".data) ∧
    (∀ l : List Char, escChar ∉ l →
       strip_ansi_codes l = l.filter (fun c => c ≠ '\r')) ∧
    (∀ params : List Char, (∀ c ∈ params, isAsciiLetter c = false) →
       strip_ansi_codes (escChar :: '[' :: params) = []) ∧
    (∀ body : List Char, belChar ∉ body → escChar ∉ body →
       strip_ansi_codes (escChar :: ']' :: body) = []) ∧
    (∀ (c : Char) (rest : List Char),
       strip_ansi_codes (escChar :: '(' :: c :: rest) = strip_ansi_codes rest ∧
       strip_ansi_codes (escChar :: ')' :: c :: rest) = strip_ansi_codes rest) := by
  refine ⟨?_, ?_, ?_, ?_, ?_⟩
  · simp [strip_ansi_codes, dropCsi, escChar, isAsciiLetter]
  · intro l hl
    induction l with
    | nil => simp [strip_ansi_codes]
    | cons c rest ih =>
      have hc : ¬c = escChar := fun e => hl (e ▸ List.mem_cons_self c rest)
      have ih' := ih fun e => hl (List.mem_cons_of_mem c e)
      by_cases hcr : c = '\r'
      · subst hcr
        rw [strip_ansi_codes.eq_def]
        simp [ih', escChar]
      · rw [strip_ansi_codes.eq_def]
        simp [hc, hcr, ih']
  · intro params hp
    simp [strip_ansi_codes, dropCsi_of_no_letter hp]
  · intro body hb1 hb2
    simp [strip_ansi_codes, dropOsc_of_no_terminator hb1 hb2, escChar]
  · intro c rest
    constructor <;> simp [strip_ansi_codes, escChar]

/-- Witness for C6's escape-free clause at `"a\rb"`. -/
theorem C6_strip_ansi_witness :
    escChar ∉ ("a\rb".data) ∧
    strip_ansi_codes ("a\rb".data) = ("a\rb".data).filter (fun c => c ≠ '\r') :=
  ⟨by decide, C6_strip_ansi.2.1 ("a\rb".data) (by decide)⟩

/-- The empty pattern wildcard-matches no non-empty alias. -/
theorem wildcard_match_empty_pattern (A : String) (hA : A ≠ "") :
    wildcard_match "" A = false := by
  have key : ∀ (text : List Char) (fuel : Nat), 0 < text.length → 0 < fuel →
      wmLoop [] text fuel 0 0 none 0 = false := by
    intro text fuel ht hf
    obtain ⟨f, rfl⟩ : ∃ f, fuel = f + 1 := ⟨fuel - 1, by omega⟩
    rw [wmLoop]
    simp [ht]
  have htext : 0 < (lowercase_ascii A).data.length := by
    have hdata : A.data ≠ [] := by
      intro e
      apply hA
      cases A with
      | mk d =>
        simp only at e
        rw [e]
    show 0 < (A.data.map asciiToLower).length
    rw [List.length_map]
    exact List.length_pos.mpr hdata
  show wmLoop (lowercase_ascii "").data (lowercase_ascii A).data
      (((lowercase_ascii A).data.length + 2) * ((lowercase_ascii "").data.length + 2))
      0 0 none 0 = false
  have hpat : (lowercase_ascii "").data = ([] : List Char) := rfl
  rw [hpat]
  exact key _ _ htext (by positivity)

/-- The pattern-list loop of `host_block_matches`, characterized: the
result is "some positive pattern exists and some positive pattern
matches and no negated pattern matches", flags folded in. -/
theorem hostBlockMatchesLoop_claim (A : String) (hA : A ≠ "") (l : List String) :
    ∀ hp pm : Bool,
      hostBlockMatchesLoop A hp pm l =
        (((hp || l.any fun p => !p.isEmpty && !(p.front == '!')) &&
          (pm || l.any fun p => !(p.front == '!') && wildcard_match p A)) &&
         !(l.any fun p => (p.front == '!') && wildcard_match (p.drop 1) A)) := by
  induction l with
  | nil => intro hp pm; simp [hostBlockMatchesLoop]
  | cons raw rest ih =>
    intro hp pm
    by_cases hempty : raw.isEmpty = true
    · have hraw : raw = "" := (String.isEmpty_iff _).mp hempty
      subst hraw
      rw [hostBlockMatchesLoop, if_pos hempty, ih hp pm]
      have hfront : (("" : String).front == '!') = false := by decide
      have hwm : wildcard_match "" A = false := wildcard_match_empty_pattern A hA
      have hie : ("" : String).isEmpty = true := rfl
      simp [hfront, hwm, hie]
    · by_cases hfront : raw.front = '!'
      · by_cases hcond : ¬(raw.drop 1).isEmpty = true ∧ wildcard_match (raw.drop 1) A = true
        · rw [hostBlockMatchesLoop, if_neg hempty, if_pos hfront, if_pos hcond]
          have : (raw.front == '!') = true := by simp [hfront]
          simp [this, hcond.2]
        · rw [hostBlockMatchesLoop, if_neg hempty, if_pos hfront, if_neg hcond, ih hp pm]
          have hwm : wildcard_match (raw.drop 1) A = false := by
            rcases not_and_or.mp hcond with h | h
            · have he : (raw.drop 1).isEmpty = true := not_not.mp h
              rw [(String.isEmpty_iff _).mp he]
              exact wildcard_match_empty_pattern A hA
            · simpa using h
          have hfb : (raw.front == '!') = true := by simp [hfront]
          simp [hempty, hfb, hwm]
      · have hfb : (raw.front == '!') = false := by simp [hfront]
        rw [hostBlockMatchesLoop, if_neg hempty, if_neg hfront,
          ih true (pm || wildcard_match raw A)]
        simp [hempty, hfb, Bool.or_assoc]

/-- For a non-empty alias, the code's `host_block_matches` coincides
with the spec's wording (claim C1's pattern-list match). -/
theorem host_block_matches_eq_claim (block : SSHConfigHostBlock) (A : String)
    (hA : A ≠ "") :
    host_block_matches block A = block_matches_claim block A := by
  unfold host_block_matches block_matches_claim
  rw [hostBlockMatchesLoop_claim A hA block.patterns false false]
  simp only [Bool.false_or]
  cases hval : (block.patterns.any fun p => !(p.front == '!') && wildcard_match p A) with
  | false => simp [hval]
  | true =>
    have hpos : (block.patterns.any fun p => !p.isEmpty && !(p.front == '!')) = true := by
      obtain ⟨p, hmem, hpred⟩ := List.any_eq_true.mp hval
      have h1 := (Bool.and_eq_true_iff.mp hpred).1
      have h2 := (Bool.and_eq_true_iff.mp hpred).2
      have hne : p.isEmpty = false := by
        cases he : p.isEmpty
        · rfl
        · exfalso
          rw [(String.isEmpty_iff _).mp he, wildcard_match_empty_pattern A hA] at h2
          cases h2
      exact List.any_eq_true.mpr ⟨p, hmem, by simp [hne, h1]⟩
    simp [hval, hpos]

/-- The `matched` flag computed by `resolve_ssh_alias`'s block fold. -/
theorem resolve_fold_snd (A : String) (blocks : List SSHConfigHostBlock) :
    ∀ (e : SSHConfigOptions) (flag : Bool),
      (blocks.foldl
        (fun (st : SSHConfigOptions × Bool) block =>
          if host_block_matches block A then (merge_options block.options st.1, true) else st)
        (e, flag)).2 = (flag || blocks.any fun b => host_block_matches b A) := by
  induction blocks with
  | nil => intro e flag; simp
  | cons b rest ih =>
    intro e flag
    by_cases hb : host_block_matches b A = true
    · simp [List.foldl_cons, hb, ih]
    · simp [List.foldl_cons, hb, ih]

/-- C1 counterexample: the claim fails at the empty alias: a `Host *`
block's pattern list matches `""`, yet `resolve_ssh_alias` returns
`NotFound` because of its explicit empty-alias guard. -/
theorem C1_counterexample :
    ¬(resolve_ssh_alias "" starOnlyConfigFile = none ↔
        ∀ b ∈ starOnlyConfigFile.host_blocks, ¬(block_matches_claim b "" = true)) := by
  intro hiff
  have h1 : resolve_ssh_alias "" starOnlyConfigFile = none := rfl
  have h2 := hiff.mp h1 { patterns := ["*"] } (by simp [starOnlyConfigFile])
  exact h2 (by decide)

/-- C1 (amended): for every NON-EMPTY alias and parsed host-alias file,
`resolve_ssh_alias` returns `NotFound` iff no host block's pattern list
matches the alias (at least one non-negated pattern wildcard-matches it
and no `!`-negated pattern does). -/
theorem C1_resolve_notfound_iff (A : String) (F : SSHConfigFile) (hA : A ≠ "") :
    resolve_ssh_alias A F = none ↔
      ∀ b ∈ F.host_blocks, ¬(block_matches_claim b A = true) := by
  unfold resolve_ssh_alias resolve_fold
  rw [if_neg hA]
  simp only [resolve_fold_snd A F.host_blocks, Bool.false_or]
  cases hany : (F.host_blocks.any fun b => host_block_matches b A) with
  | true =>
    simp only [hany]
    constructor
    · intro h
      exact absurd h (by simp)
    · intro hall
      obtain ⟨b, hmem, hmatch⟩ := List.any_eq_true.mp hany
      rw [host_block_matches_eq_claim b A hA] at hmatch
      exact absurd hmatch (hall b hmem)
  | false =>
    constructor
    · intro _ b hmem hclaim
      rw [← host_block_matches_eq_claim b A hA] at hclaim
      have : (F.host_blocks.any fun b => host_block_matches b A) = true :=
        List.any_eq_true.mpr ⟨b, hmem, hclaim⟩
      rw [hany] at this
      cases this
    · intro _
      rfl

/-- Witness for C1 (amended) at the alias `box1` and the §8 example
file. -/
theorem C1_resolve_notfound_iff_witness :
    ("box1" : String) ≠ "" ∧
    (resolve_ssh_alias "box1" exampleConfigFile = none ↔
      ∀ b ∈ exampleConfigFile.host_blocks, ¬(block_matches_claim b "box1" = true)) :=
  ⟨by decide, C1_resolve_notfound_iff "box1" exampleConfigFile (by decide)⟩

/-- `lastSetBy` is `none` exactly when no entry sets the field. -/
theorem lastSetBy_eq_none {α : Type} (f : SSHConfigOptions → Option α)
    (l : List SSHConfigOptions) :
    lastSetBy f l = none ↔ ∀ o ∈ l, f o = none := by
  induction l with
  | nil => simp [lastSetBy]
  | cons o rest ih =>
    simp only [lastSetBy]
    cases h : lastSetBy f rest with
    | some v =>
      constructor
      · intro hc; cases hc
      · intro hall
        exfalso
        have : lastSetBy f rest = none :=
          ih.mpr fun o' ho' => hall o' (List.mem_cons_of_mem _ ho')
        rw [h] at this
        cases this
    | none =>
      constructor
      · intro hf o' ho'
        rcases List.mem_cons.mp ho' with rfl | hm
        · exact hf
        · exact (ih.mp h) o' hm
      · intro hall
        exact hall o (List.mem_cons_self _ _)

/-- Value of one option field after folding `merge_options` over a
list: the last explicitly-set value, else the initial value. -/
theorem chainMerge_get {α : Type} (get : SSHConfigOptions → α)
    (has : SSHConfigOptions → Bool) (setting : SSHConfigOptions → Option α)
    (hsetting : ∀ o, setting o = if has o then some (get o) else none)
    (hmerge : ∀ s t, get (merge_options s t) = if has s then get s else get t)
    (l : List SSHConfigOptions) :
    ∀ init, get (chainMerge l init) = (lastSetBy setting l).getD (get init) := by
  induction l with
  | nil => intro init; simp [chainMerge, lastSetBy]
  | cons o rest ih =>
    intro init
    have h1 : chainMerge (o :: rest) init = chainMerge rest (merge_options o init) := rfl
    rw [h1, ih]
    simp only [lastSetBy]
    cases hrest : lastSetBy setting rest with
    | some v => simp
    | none =>
      simp only [Option.getD_none]
      rw [hmerge, hsetting]
      cases h : has o <;> simp

/-- Set-flag of one option field after folding `merge_options`. -/
theorem chainMerge_has (has : SSHConfigOptions → Bool)
    (hmerge : ∀ s t, has (merge_options s t) = (has s || has t))
    (l : List SSHConfigOptions) :
    ∀ init, has (chainMerge l init) = (l.any has || has init) := by
  induction l with
  | nil => intro init; simp [chainMerge]
  | cons o rest ih =>
    intro init
    have h1 : chainMerge (o :: rest) init = chainMerge rest (merge_options o init) := rfl
    rw [h1, ih, hmerge]
    simp only [List.any_cons]
    cases h : has o <;> simp [h]

/-- The running option set built by `resolve_ssh_alias`'s block fold is
the `merge_options` chain over the matching blocks' options. -/
theorem resolve_fold_fst (A : String) (blocks : List SSHConfigHostBlock) :
    ∀ (e : SSHConfigOptions) (flag : Bool),
      (blocks.foldl
        (fun (st : SSHConfigOptions × Bool) block =>
          if host_block_matches block A then (merge_options block.options st.1, true) else st)
        (e, flag)).1 =
      chainMerge ((blocks.filter fun b => host_block_matches b A).map (·.options)) e := by
  induction blocks with
  | nil => intro e flag; simp [chainMerge]
  | cons b rest ih =>
    intro e flag
    by_cases hb : host_block_matches b A = true
    · rw [List.foldl_cons, if_pos hb, ih,
        List.filter_cons_of_pos (by exact hb), List.map_cons]
      rfl
    · rw [List.foldl_cons, if_neg hb, ih,
        List.filter_cons_of_neg (by exact hb)]

/-- `resolve_fold`'s running options, phrased via `chainMerge`. -/
theorem resolve_fold_fst_eq (A : String) (F : SSHConfigFile) :
    (resolve_fold A F).1 =
      chainMerge (matching_options A F) (merge_options F.global_options {}) := by
  unfold resolve_fold matching_options
  exact resolve_fold_fst A F.host_blocks _ _

/-- One resolved field with its default: last matching setter, else the
global setting, else the default. -/
theorem effective_getD {α : Type} (get : SSHConfigOptions → α)
    (has : SSHConfigOptions → Bool) (setting : SSHConfigOptions → Option α)
    (hsetting : ∀ o, setting o = if has o then some (get o) else none)
    (hmerge_get : ∀ s t, get (merge_options s t) = if has s then get s else get t)
    (hmerge_has : ∀ s t, has (merge_options s t) = (has s || has t))
    (l : List SSHConfigOptions) (g : SSHConfigOptions) (dflt : α)
    (hinit_has : has ({} : SSHConfigOptions) = false) :
    (if has (chainMerge l (merge_options g {})) = true
     then get (chainMerge l (merge_options g {})) else dflt) =
    (lastSetBy setting (g :: l)).getD dflt := by
  rw [chainMerge_get get has setting hsetting hmerge_get l,
    chainMerge_has has hmerge_has l, hmerge_get, hmerge_has, hinit_has]
  simp only [lastSetBy]
  cases hrest : lastSetBy setting l with
  | some v =>
    have hany : l.any has = true := by
      by_contra hq
      have hfalse : l.any has = false := by simpa using hq
      have hnone : lastSetBy setting l = none := by
        refine (lastSetBy_eq_none setting l).mpr fun o ho => ?_
        rw [hsetting]
        have hhas : has o = false := by
          by_contra hq2
          have : l.any has = true := List.any_eq_true.mpr ⟨o, ho, by simpa using hq2⟩
          rw [hfalse] at this
          cases this
        simp [hhas]
      rw [hrest] at hnone
      cases hnone
    rw [hany]
    simp
  | none =>
    have hall : ∀ o ∈ l, setting o = none := (lastSetBy_eq_none setting l).mp hrest
    have hany : l.any has = false := by
      by_contra hq
      have htrue : l.any has = true := by simpa using hq
      obtain ⟨o, ho, hhas⟩ := List.any_eq_true.mp htrue
      have := hall o ho
      rw [hsetting] at this
      simp [hhas] at this
    rw [hany]
    simp only [Bool.false_or]
    cases hg : has g <;> simp [hsetting, hg]

/-- C2: resolution starts from the global options and merges matching
blocks' set fields in file order, later matching blocks overriding
earlier ones per field: the resolved port is the LAST explicitly-set
port among global options followed by the matching blocks (default 22
when none sets it), and similarly for hostname (default: the alias) and
strict-host-key-checking (default `"ask"`). -/
theorem C2_merge_order (A : String) (F : SSHConfigFile) (r : ResolvedSSHConfig)
    (h : resolve_ssh_alias A F = some r) :
    r.port = (lastSetBy portSetting (F.global_options :: matching_options A F)).getD 22 ∧
    r.host_name =
      (lastSetBy hostNameSetting (F.global_options :: matching_options A F)).getD A ∧
    r.strict_host_key_checking =
      (lastSetBy strictSetting (F.global_options :: matching_options A F)).getD "ask" := by
  by_cases hA : A = ""
  · subst hA
    simp [resolve_ssh_alias] at h
  · unfold resolve_ssh_alias at h
    rw [if_neg hA] at h
    split at h
    · have hr := Option.some.inj h
      subst hr
      refine ⟨?_, ?_, ?_⟩
      · show (if _ then _ else _) = _
        rw [resolve_fold_fst_eq A F]
        exact effective_getD (·.port) (·.has_port) portSetting
          (fun o => rfl) (fun s t => rfl) (fun s t => rfl) _ _ 22 rfl
      · show (if _ then _ else _) = _
        rw [resolve_fold_fst_eq A F]
        exact effective_getD (·.host_name) (·.has_host_name) hostNameSetting
          (fun o => rfl) (fun s t => rfl) (fun s t => rfl) _ _ A rfl
      · show (if _ then _ else _) = _
        rw [resolve_fold_fst_eq A F]
        exact effective_getD (·.strict_host_key_checking) (·.has_strict_host_key_checking)
          strictSetting (fun o => rfl) (fun s t => rfl) (fun s t => rfl) _ _ "ask" rfl
    · cases h

/-- Witness for C2 at the §8 scenario: `box1` resolves with the
matching block's hostname and the global port 2222. -/
theorem C2_merge_order_witness :
    resolve_ssh_alias "box1" exampleConfigFile = some exampleResolved ∧
    exampleResolved.port =
      (lastSetBy portSetting
        (exampleConfigFile.global_options :: matching_options "box1" exampleConfigFile)).getD
        22 :=
  ⟨by decide, (C2_merge_order "box1" exampleConfigFile exampleResolved (by decide)).1⟩

/-- With exactly one loaded key (stored lowercased, as
`load_key_from_memory` guarantees), `find_loaded_key_with_fallback`
returns that key's content for ANY desired identity path: every stage
either matches the sole key or falls through to the sole-candidate
fallback. -/
theorem find_loaded_key_singleton (name content path : String)
    (h : lowercase_ascii name = name) :
    (find_loaded_key_with_fallback [(name, content)] path).map Prod.snd = some content := by
  have hself : get_loaded_key [(name, content)] name = some content := by
    simp [get_loaded_key, List.find?, h]
  cases hdirect : get_loaded_key [(name, content)] (base_name path) with
  | some c =>
    have hc : c = content := by
      unfold get_loaded_key at hdirect
      obtain ⟨kv, hfind, hsnd⟩ := Option.map_eq_some'.mp hdirect
      have hmem := List.mem_of_find?_eq_some hfind
      rw [List.mem_singleton] at hmem
      rw [hmem] at hsnd
      exact hsnd.symm
    simp [find_loaded_key_with_fallback, hdirect, hc]
  | none =>
    simp only [find_loaded_key_with_fallback, hdirect, List.map_cons, List.map_nil]
    cases hp1 : stem_candidate_matches (normalize_key_stem (base_name path)) name with
    | true => simp [hp1, hself]
    | false =>
      cases hps : parse_short_83_name (base_name path) with
      | none => simp [hp1, hps, hself]
      | some pe =>
        obtain ⟨p1, p2⟩ := pe
        cases hp2 : short83_candidate_matches p1 p2 name with
        | true => simp [hp1, hps, hp2, hself]
        | false => simp [hp1, hps, hp2, hself]

/-- When the direct lookup fails, no loaded name passes the
normalized-stem test, no loaded name passes the short-8.3 test, and
there are at least two loaded keys, the resolver returns nothing. -/
theorem find_loaded_key_no_match (keys : List (String × String)) (path : String)
    (hdirect : get_loaded_key keys (base_name path) = none)
    (hstem : (keys.map (·.1)).filter
        (stem_candidate_matches (normalize_key_stem (base_name path))) = [])
    (hshort : ∀ pe : String × String, parse_short_83_name (base_name path) = some pe →
        (keys.map (·.1)).filter ( short83_candidate_matches pe.1 pe.2) = [])
    (hlen : 2 ≤ keys.length) :
    find_loaded_key_with_fallback keys path = none := by
  have hne : (keys.map (·.1)).isEmpty = false := by
    cases keys with
    | nil => simp at hlen
    | cons a as => simp
  have hlen1 : ¬keys.length = 1 := by omega
  simp only [find_loaded_key_with_fallback, hdirect, hne, hstem]
  cases hps : parse_short_83_name (base_name path) with
  | none => simp [hlen1]
  | some pe =>
    obtain ⟨p1, p2⟩ := pe
    have := hshort (p1, p2) hps
    simp [this, hlen1]

/-- C7: identity resolution against the loaded keys accepts exact,
prefix, or truncated-prefix equality of normalized names; with only
`prodkey.pem` loaded, resolving `id_rsa` returns `prodkey.pem`'s
content (sole-candidate fallback, stated for one arbitrary loaded key);
and with two or more loaded keys none of which matches any stage, no
key is returned. -/
theorem C7_identity_resolution :
    (∀ K : String,
      (find_loaded_key_with_fallback [("prodkey.pem", K)] "id_rsa").map Prod.snd = some K) ∧
    (∀ name content path : String, lowercase_ascii name = name →
      (find_loaded_key_with_fallback [(name, content)] path).map Prod.snd = some content) ∧
    (∀ (keys : List (String × String)) (path : String),
      get_loaded_key keys (base_name path) = none →
      (keys.map (·.1)).filter (stem_candidate_matches (normalize_key_stem (base_name path)))
        = [] →
      (∀ pe : String × String, parse_short_83_name (base_name path) = some pe →
        (keys.map (·.1)).filter ( short83_candidate_matches pe.1 pe.2) = []) →
      2 ≤ keys.length →
      find_loaded_key_with_fallback keys path = none) :=
  ⟨fun K => find_loaded_key_singleton "prodkey.pem" K "id_rsa" (by decide),
   fun name content path h => find_loaded_key_singleton name content path h,
   fun keys path h1 h2 h3 h4 => find_loaded_key_no_match keys path h1 h2 h3 h4⟩

/-- Witness for C7: the `prodkey.pem`/`id_rsa` sole-candidate fallback
and the two-unrelated-keys no-match case, concretely. -/
theorem C7_identity_resolution_witness :
    ((find_loaded_key_with_fallback [("prodkey.pem", "KEYDATA")] "id_rsa").map Prod.snd =
      some "KEYDATA") ∧
    find_loaded_key_with_fallback [("alpha.pem", "A"), ("beta.pem", "B")] "id_rsa" = none :=
  ⟨C7_identity_resolution.1 "KEYDATA",
   C7_identity_resolution.2.2 [("alpha.pem", "A"), ("beta.pem", "B")] "id_rsa"
     (by decide) (by decide)
     (fun pe hpe => by
       rw [show parse_short_83_name (base_name "id_rsa") = none from by decide] at hpe
       cases hpe)
     (by decide)⟩

end PocketSSH
